import Mathlib

/- Verification development for scripts/collect_plate_formats.py.

   The script is a sequential pipeline: for each country in a static table it
   fetches the Wikipedia wikitext of "Vehicle_registration_plates_of_<suffix>",
   asks an LLM to extract structured plate data, and merges the result into a
   JSON document keyed by ISO code, written incrementally.

   This file gives a shallow embedding of:
   - the pure string processing of extract_with_openai (truncation, prompt
     construction, markdown code-fence stripping), over List Char, with
     Python str.strip modelled on the ASCII whitespace characters;
   - fetch_article_wikitext's rate-limit handling, over an explicit pair of
     HTTP responses, producing an event trace;
   - main's control loop, over an oracle assigning each country a fetch
     outcome and an extraction outcome, with the persisted document, the
     in-memory entries dict, the counters and an event trace made explicit.
     Timestamps are modelled as ticks from a counter consumed at each
     datetime.now call.  Console progress printing, directory creation and
     the requests.Session object are not modelled except for the abort-path
     messages that the claims mention. -/

namespace PlateLab

/- Python str.strip() whitespace, restricted to the ASCII whitespace set. -/
def pyIsSpace (c : Char) : Bool :=
  c = ' ' || c = '\t' || c = '\n' || c = '\r' || c = '\x0b' || c = '\x0c'

def ltrim (l : List Char) : List Char := l.dropWhile pyIsSpace

def rtrim (l : List Char) : List Char := (l.reverse.dropWhile pyIsSpace).reverse

/- Model of Python s.strip(): remove leading and trailing whitespace. -/
def pyStrip (l : List Char) : List Char := ltrim (rtrim l)

/- Model of Python s.upper() on the ASCII range (country codes are ASCII). -/
def pyUpperChar (c : Char) : Char :=
  if 'a' ≤ c ∧ c ≤ 'z' then Char.ofNat (c.toNat - 32) else c

def pyUpper (s : String) : String := String.mk (s.data.map pyUpperChar)

/- Python s.split("\n", 1)[1]: everything after the first newline, or an
   IndexError (modelled as none) when the text holds no newline. -/
def splitAfterNewline : List Char → Option (List Char)
  | [] => none
  | c :: rest => if c = '\n' then some rest else splitAfterNewline rest

/- Exception kinds relevant to the script's control flow. -/
inductive PyExc where
  | jsonDecodeError
  | apiError
  | indexError
  | httpError (status : Nat)
  deriving DecidableEq, Repr

/- The try/except in main's loop catches exactly json.JSONDecodeError and
   openai.APIError (lines 273-278). -/
def caughtByLoop : PyExc → Bool
  | .jsonDecodeError => true
  | .apiError => true
  | _ => false

def fenceChars : List Char := "```".data

/- Model of extract_with_openai lines 157-166: strip the reply, remove a
   leading/trailing markdown code fence if present, strip again.  The result
   is the text handed to json.loads.  A reply that starts with the fence but
   holds no newline makes split("\n", 1)[1] raise IndexError. -/
def stripCodeFence (raw : List Char) : Except PyExc (List Char) :=
  let t := pyStrip raw
  if fenceChars.isPrefixOf t then
    match splitAfterNewline t with
    | none => Except.error PyExc.indexError
    | some t2 =>
      let t3 := if fenceChars.isSuffixOf t2 then t2.take (t2.length - 3) else t2
      Except.ok (pyStrip t3)
  else
    Except.ok t

/- Truncation of long articles, extract_with_openai lines 142-144. -/
def max_chars : Nat := 80000

def truncationMarker : List Char := "\n\n[... article truncated ...]".data

def truncateWikitext (w : List Char) : List Char :=
  if max_chars < w.length then w.take max_chars ++ truncationMarker else w

/- EXTRACTION_PROMPT.format(country_name=..., wikitext=...): the template
   split at its two placeholders, with Python brace escaping already
   resolved. -/
def promptPart1 : List Char :=
  "You are given the raw wikitext of a Wikipedia article about vehicle registration plates of ".data

def promptPart2 : List Char :=
  (".\n\nExtract the following information about the CURRENT STANDARD private vehicle registration plate. If a piece of information is not available in the article, use null for that field.\n\nReturn ONLY a JSON object (no markdown, no explanation) with these fields:\n\n\x7b\n" ++
   "  \"format_pattern\": \"The character pattern using L for letter and N for number, e.g. \x27LL-NNNN-LL\x27 or \x27LLL NNNN\x27. Show separators (hyphens, spaces) as they appear on the plate.\",\n" ++
   "  \"format_explanation\": \"Brief explanation of what each part represents (e.g. region code, serial number, etc.)\",\n" ++
   "  \"alphabet\": \"What alphabet/character set is used (e.g. Latin, Cyrillic, Greek) and any notable restrictions on which letters are used\",\n" ++
   "  \"forbidden_combinations\": \"Any letter/number combinations that are banned or restricted, and why. null if none mentioned.\",\n" ++
   "  \"vanity_plates\": \"Whether personalized/vanity plates are available, and any rules or costs. null if not mentioned.\",\n" ++
   "  \"year_introduced\": \"Year the current plate design/system was introduced\",\n" ++
   "  \"dimensions\": \"Physical plate dimensions (e.g. \x27520 × 110 mm\x27)\",\n" ++
   "  \"colors_background\": \"Background color of the plate\",\n" ++
   "  \"colors_lettering\": \"Color of the letters/numbers\",\n" ++
   "  \"colors_strip\": \"Color/description of the side strip or band (e.g. \x27Blue EU band with yellow stars\x27). null if no strip.\",\n" ++
   "  \"typeface\": \"Name of the font/typeface used on the plate. null if not mentioned.\",\n" ++
   "  \"strip_contents\": \"What is displayed on the strip/band (e.g. \x27EU flag and country code D\x27). null if no strip.\"\n\x7d\n\nHere is the wikitext:\n\n").data

def promptPart3 : List Char := "\n".data

/- The formatted template applied to an arbitrary (already truncated)
   wikitext. -/
def formatPrompt (countryName w : List Char) : List Char :=
  promptPart1 ++ countryName ++ promptPart2 ++ w ++ promptPart3

/- The prompt extract_with_openai builds: truncate, then format. -/
def extractPrompt (countryName w : List Char) : List Char :=
  formatPrompt countryName (truncateWikitext w)

/- JSON values, as produced by json.loads and stored in the document. -/
inductive JsonVal where
  | null
  | boolean (b : Bool)
  | num (n : Int)
  | str (s : String)
  | arr (l : List JsonVal)
  | obj (l : List (String × JsonVal))

/- Python dict lookup on an insertion-ordered association list. -/
def dictLookup (k : String) : List (String × α) → Option α
  | [] => none
  | (k', v) :: rest => if k' = k then some v else dictLookup k rest

/- Python dict assignment d[k] = v: update in place when the key exists,
   append otherwise. -/
def dictSet (k : String) (v : α) : List (String × α) → List (String × α)
  | [] => [(k, v)]
  | (k', v') :: rest =>
    if k' = k then (k, v) :: rest else (k', v') :: dictSet k v rest

/- Wikipedia API helper, fetch_article_wikitext lines 116-136.  The network
   is modelled by the (at most two) responses the two session.get calls would
   receive; the body is the decoded JSON. -/
structure HttpResponse where
  status : Nat
  retryAfter : Option Nat
  body : JsonVal

inductive FetchEvent where
  | sleepDelay
  | httpGet (title : String)
  | sleepRetry (seconds : Nat)
  deriving DecidableEq, Repr

def jsonGet (j : JsonVal) (k : String) : Option JsonVal :=
  match j with
  | JsonVal.obj l => dictLookup k l
  | _ => none

/- data.get("parse", {}).get("wikitext", {}).get("*") on the decoded body. -/
def wikitextOfBody (data : JsonVal) : Option JsonVal :=
  jsonGet ((jsonGet data "parse").getD (JsonVal.obj [])) "wikitext" |>.getD (JsonVal.obj [])
    |> (fun j => jsonGet j "*")

/- Model of fetch_article_wikitext: sleep the fixed inter-request delay, GET
   the page; on a 429 wait Retry-After (default 60) and GET once more; then
   raise_for_status, and read the wikitext out of the JSON body ("error" in
   the body means article not found, i.e. None). -/
def fetch_article_wikitext (article_suffix : String) (r1 r2 : HttpResponse) :
    List FetchEvent × Except PyExc (Option JsonVal) :=
  let title := "Vehicle_registration_plates_of_" ++ article_suffix
  let (events, resp) :=
    if r1.status = 429 then
      let wait := r1.retryAfter.getD 60
      ([FetchEvent.sleepDelay, FetchEvent.httpGet title,
        FetchEvent.sleepRetry wait, FetchEvent.httpGet title], r2)
    else
      ([FetchEvent.sleepDelay, FetchEvent.httpGet title], r1)
  if 400 ≤ resp.status ∧ resp.status < 600 then
    (events, Except.error (PyExc.httpError resp.status))
  else if (jsonGet resp.body "error").isSome then
    (events, Except.ok none)
  else
    (events, Except.ok (wikitextOfBody resp.body))

/- A reply wrapped in a markdown code fence: the opening fence with an
   optional info string, the payload on its own lines, the closing fence. -/
def wrapFence (info J : List Char) : List Char :=
  fenceChars ++ info ++ ['\n'] ++ J ++ ['\n'] ++ fenceChars

/- The static country table (ISO code -> display name, article suffix), in
   the source's insertion order, which is the order Python iterates it in. -/
structure CountryInfo where
  name : String
  suffix : String
  deriving DecidableEq, Repr

def COUNTRIES : List (String × CountryInfo) :=
  [("AL", ⟨"Albania", "Albania"⟩),
   ("AD", ⟨"Andorra", "Andorra"⟩),
   ("AM", ⟨"Armenia", "Armenia"⟩),
   ("AT", ⟨"Austria", "Austria"⟩),
   ("BY", ⟨"Belarus", "Belarus"⟩),
   ("BE", ⟨"Belgium", "Belgium"⟩),
   ("BA", ⟨"Bosnia and Herzegovina", "Bosnia_and_Herzegovina"⟩),
   ("BG", ⟨"Bulgaria", "Bulgaria"⟩),
   ("CH", ⟨"Switzerland", "Switzerland"⟩),
   ("CY", ⟨"Cyprus", "Cyprus"⟩),
   ("CZ", ⟨"Czech Republic", "the_Czech_Republic"⟩),
   ("DE", ⟨"Germany", "Germany"⟩),
   ("DK", ⟨"Denmark", "Denmark"⟩),
   ("EE", ⟨"Estonia", "Estonia"⟩),
   ("ES", ⟨"Spain", "Spain"⟩),
   ("FI", ⟨"Finland", "Finland"⟩),
   ("FR", ⟨"France", "France"⟩),
   ("GB", ⟨"United Kingdom", "the_United_Kingdom"⟩),
   ("GE", ⟨"Georgia", "Georgia_(country)"⟩),
   ("GR", ⟨"Greece", "Greece"⟩),
   ("HR", ⟨"Croatia", "Croatia"⟩),
   ("HU", ⟨"Hungary", "Hungary"⟩),
   ("IE", ⟨"Ireland", "the_Republic_of_Ireland"⟩),
   ("IS", ⟨"Iceland", "Iceland"⟩),
   ("IT", ⟨"Italy", "Italy"⟩),
   ("LI", ⟨"Liechtenstein", "Liechtenstein"⟩),
   ("LT", ⟨"Lithuania", "Lithuania"⟩),
   ("LU", ⟨"Luxembourg", "Luxembourg"⟩),
   ("LV", ⟨"Latvia", "Latvia"⟩),
   ("MD", ⟨"Moldova", "Moldova"⟩),
   ("ME", ⟨"Montenegro", "Montenegro"⟩),
   ("MK", ⟨"North Macedonia", "North_Macedonia"⟩),
   ("NL", ⟨"Netherlands", "the_Netherlands"⟩),
   ("NO", ⟨"Norway", "Norway"⟩),
   ("PL", ⟨"Poland", "Poland"⟩),
   ("PT", ⟨"Portugal", "Portugal"⟩),
   ("RO", ⟨"Romania", "Romania"⟩),
   ("RS", ⟨"Serbia", "Serbia"⟩),
   ("SE", ⟨"Sweden", "Sweden"⟩),
   ("SI", ⟨"Slovenia", "Slovenia"⟩),
   ("SK", ⟨"Slovakia", "Slovakia"⟩),
   ("TR", ⟨"Turkey", "Turkey"⟩),
   ("UA", ⟨"Ukraine", "Ukraine"⟩),
   ("XK", ⟨"Kosovo", "Kosovo"⟩)]

/- Observable events of a run of main, in order. -/
inductive Event where
  | clientCreate
  | fetchCall (iso : String) (suffix : String)
  | llmCall (iso : String)
  | printLine (s : String)
  deriving DecidableEq, Repr

/- The persisted JSON document: generation timestamp (a tick) and the
   entries dict keyed by ISO code. -/
structure Doc where
  generatedAt : Nat
  entries : List (String × JsonVal)

/- Per-country oracle for the fetch step, abstracting
   fetch_article_wikitext's three observable outcomes at the call site in
   main. -/
inductive FetchOutcome where
  | found
  | notFound
  | raiseStatus (status : Nat)

/- Per-country oracle for extract_with_openai at its call site in main:
   either a returned value (None or a parsed JSON object, modelled by its
   field list) or a raised exception. -/
inductive ExtractOutcome where
  | returned (r : Option (List (String × JsonVal)))
  | raiseExc (e : PyExc)

structure Cfg where
  dryRun : Bool
  singleCountry : Bool
  fetchO : String → FetchOutcome
  extractO : String → ExtractOutcome

/- The mutable state of main's loop: the in-memory entries dict, the three
   counters, the datetime.now tick counter, the on-disk document, and the
   event trace so far. -/
structure St where
  entries : List (String × JsonVal)
  nSuccess : Nat
  nFailed : Nat
  nSkipped : Nat
  tick : Nat
  file : Option Doc
  events : List Event

inductive LoopRes where
  | finished (st : St)
  | raised (e : PyExc) (st : St)

def LoopRes.st : LoopRes → St
  | LoopRes.finished s => s
  | LoopRes.raised _ s => s

/- Provenance fields added to a successful extraction result,
   main lines 258-261; extracted_at consumes one tick. -/
def augmentResult (fields : List (String × JsonVal))
    (iso name suffix : String) (t : Nat) : List (String × JsonVal) :=
  dictSet "extracted_at" (JsonVal.num t)
    (dictSet "wikipedia_article"
      (JsonVal.str ("Vehicle_registration_plates_of_" ++ suffix))
      (dictSet "iso" (JsonVal.str iso)
        (dictSet "country_name" (JsonVal.str name) fields)))

/- Model of main's per-country loop, lines 229-278.  A country already in
   the entries dict is skipped unless a single country was selected; a fetch
   HTTP error or an extraction exception other than json.JSONDecodeError and
   openai.APIError propagates and aborts the loop; the caught failure kinds
   and a missing article or falsy result increment the failure counter and
   advance; a successful extraction updates the entries dict and rewrites
   the document with a fresh generation tick (the incremental write). -/
def runLoop (cfg : Cfg) : List (String × CountryInfo) → St → LoopRes
  | [], st => LoopRes.finished st
  | (iso, ci) :: rest, st =>
    if (dictLookup iso st.entries).isSome && !cfg.singleCountry then
      runLoop cfg rest { st with nSkipped := st.nSkipped + 1 }
    else
      let st1 := { st with events := st.events ++ [Event.fetchCall iso ci.suffix] }
      match cfg.fetchO iso with
      | FetchOutcome.raiseStatus s => LoopRes.raised (PyExc.httpError s) st1
      | FetchOutcome.notFound =>
        runLoop cfg rest { st1 with nFailed := st1.nFailed + 1 }
      | FetchOutcome.found =>
        if cfg.dryRun then
          runLoop cfg rest { st1 with nSuccess := st1.nSuccess + 1 }
        else
          let st2 := { st1 with events := st1.events ++ [Event.llmCall iso] }
          match cfg.extractO iso with
          | ExtractOutcome.raiseExc e =>
            if caughtByLoop e then
              runLoop cfg rest { st2 with nFailed := st2.nFailed + 1 }
            else
              LoopRes.raised e st2
          | ExtractOutcome.returned (some (f :: fs)) =>
            let entryVal :=
              JsonVal.obj (augmentResult (f :: fs) iso ci.name ci.suffix st2.tick)
            let newEntries := dictSet iso entryVal st2.entries
            runLoop cfg rest { st2 with
              entries := newEntries,
              nSuccess := st2.nSuccess + 1,
              tick := st2.tick + 2,
              file := some ⟨st2.tick + 1, newEntries⟩ }
          | ExtractOutcome.returned _ =>
            runLoop cfg rest { st2 with nFailed := st2.nFailed + 1 }

/- One run's inputs: the CLI flags, the environment, the pre-existing
   document, and the per-country oracles. -/
structure RunInput where
  dryRun : Bool
  country : Option String
  apiKey : Option String
  file : Option Doc
  fetchO : String → FetchOutcome
  extractO : String → ExtractOutcome

/- Python truthiness of args.country (an absent flag is None, and an empty
   string is falsy too). -/
def countrySelected (inp : RunInput) : Bool :=
  match inp.country with
  | some s => !s.isEmpty
  | none => false

inductive RunOutcome where
  | missingKey
  | unknownCountry
  | raised (e : PyExc)
  | done
  deriving DecidableEq, Repr

structure RunResult where
  outcome : RunOutcome
  file : Option Doc
  entries : List (String × JsonVal)
  nSuccess : Nat
  nFailed : Nat
  nSkipped : Nat
  tick : Nat
  events : List Event

/- Python f-string padding of a code to width 4 in the abort-path table. -/
def padCode (c : String) : String :=
  c ++ String.mk (List.replicate (4 - c.length) ' ')

def insertSorted (p : String × CountryInfo) :
    List (String × CountryInfo) → List (String × CountryInfo)
  | [] => [p]
  | q :: rest =>
    if q.1 < p.1 then q :: insertSorted p rest else p :: q :: rest

/- Python sorted(countries.items()): ascending by ISO code. -/
def sortByCode : List (String × CountryInfo) → List (String × CountryInfo)
  | [] => []
  | p :: rest => insertSorted p (sortByCode rest)

def tableLines (l : List (String × CountryInfo)) : List Event :=
  l.map (fun p => Event.printLine ("  " ++ padCode p.1 ++ "  " ++ p.2.name))

def missingKeyEvents : List Event :=
  [Event.printLine "Error: OPENAI_API_KEY environment variable is required",
   Event.printLine "Set it with: export OPENAI_API_KEY=sk-..."]

/- Document load, main lines 220-223: seed the entries dict from a prior
   document only when one exists and no single country was selected. -/
def initialEntries (inp : RunInput) : List (String × JsonVal) :=
  match inp.file with
  | some d => if countrySelected inp then [] else d.entries
  | none => []

/- The part of main from the metadata dict creation onward: run the loop,
   then (when not in dry-run mode) do the final write with a fresh
   generation tick, lines 212-284. -/
def runFromLoop (inp : RunInput) (ev0 : List Event)
    (countries : List (String × CountryInfo)) : RunResult :=
  let cfg : Cfg := ⟨inp.dryRun, countrySelected inp, inp.fetchO, inp.extractO⟩
  let st0 : St := ⟨initialEntries inp, 0, 0, 0, 1, inp.file, ev0⟩
  match runLoop cfg countries st0 with
  | LoopRes.raised e st =>
    ⟨RunOutcome.raised e, st.file, st.entries,
     st.nSuccess, st.nFailed, st.nSkipped, st.tick, st.events⟩
  | LoopRes.finished st =>
    if inp.dryRun then
      ⟨RunOutcome.done, st.file, st.entries,
       st.nSuccess, st.nFailed, st.nSkipped, st.tick, st.events⟩
    else
      ⟨RunOutcome.done, some ⟨st.tick, st.entries⟩, st.entries,
       st.nSuccess, st.nFailed, st.nSkipped, st.tick + 1, st.events⟩

/- Model of main, lines 173-288: credential check (fatal only outside
   dry-run), LLM client creation (skipped in dry-run), single-country
   selection with the sorted-table abort on an unknown code, document load,
   the loop, and the final write. -/
def main (inp : RunInput) : RunResult :=
  if inp.apiKey.isNone && !inp.dryRun then
    ⟨RunOutcome.missingKey, inp.file, [], 0, 0, 0, 0, missingKeyEvents⟩
  else
    let ev0 := if inp.dryRun then [] else [Event.clientCreate]
    match inp.country with
    | some c =>
      if c.isEmpty then runFromLoop inp ev0 COUNTRIES
      else
        let code := pyUpper c
        match dictLookup code COUNTRIES with
        | none =>
          ⟨RunOutcome.unknownCountry, inp.file, [], 0, 0, 0, 0,
           ev0 ++ [Event.printLine ("Unknown country code: " ++ code),
                   Event.printLine "Available codes:"] ++
             tableLines (sortByCode COUNTRIES)⟩
        | some ci => runFromLoop inp ev0 [(code, ci)]
    | none => runFromLoop inp ev0 COUNTRIES

/- Concrete run inputs used to check the claims on specific scenarios. -/

/- A forced single-country refresh of DE over a document that already holds
   an entry for IT; fetch and extraction succeed. -/
def c1Input : RunInput :=
  ⟨false, some "DE", some "sk-test", some ⟨0, [("IT", JsonVal.null)]⟩,
   fun _ => FetchOutcome.found,
   fun _ => ExtractOutcome.returned (some [("format_pattern", JsonVal.null)])⟩

/- Same forced refresh but with a lowercase code. -/
def c1WitnessInput : RunInput :=
  ⟨false, some "de", some "sk-test", some ⟨0, [("IT", JsonVal.null)]⟩,
   fun _ => FetchOutcome.found,
   fun _ => ExtractOutcome.returned (some [("format_pattern", JsonVal.null)])⟩

/- A full run whose very first fetch (AL) hits a 500 HTTP error. -/
def c2Input : RunInput :=
  ⟨false, none, some "sk-test", none,
   fun iso => if iso = "AL" then FetchOutcome.raiseStatus 500 else FetchOutcome.found,
   fun _ => ExtractOutcome.returned (some [("format_pattern", JsonVal.null)])⟩

/- A resumed full dry run over a document already holding IT; every article
   is reported missing. -/
def c3Input : RunInput :=
  ⟨true, none, none, some ⟨0, [("IT", JsonVal.null)]⟩,
   fun _ => FetchOutcome.notFound, fun _ => ExtractOutcome.returned none⟩

/- A dry run with no prior document: every fetch succeeds. -/
def c4Input : RunInput :=
  ⟨true, none, none, none,
   fun _ => FetchOutcome.found, fun _ => ExtractOutcome.returned none⟩

/- A non-dry single-country run whose article is missing. -/
def c4WitnessInput : RunInput :=
  ⟨false, some "DE", some "sk-test", none,
   fun _ => FetchOutcome.notFound, fun _ => ExtractOutcome.returned none⟩

/- A dry single-country run used for the dry-run claim. -/
def c8Input : RunInput :=
  ⟨true, some "DE", none, none,
   fun _ => FetchOutcome.found, fun _ => ExtractOutcome.returned none⟩

/- An unknown code with no credential outside dry-run. -/
def c9Input : RunInput :=
  ⟨false, some "ZZ", none, none,
   fun _ => FetchOutcome.found, fun _ => ExtractOutcome.returned none⟩

/- An unknown lowercase code in dry-run mode. -/
def c9WitnessInput : RunInput :=
  ⟨true, some "zz", none, none,
   fun _ => FetchOutcome.found, fun _ => ExtractOutcome.returned none⟩

/- Auxiliary lemmas about the Python string-processing models. -/

theorem ltrim_append_left {l₁ l₂ : List Char} (h : ltrim l₁ = l₁) (hne : l₁ ≠ []) :
    ltrim (l₁ ++ l₂) = l₁ ++ l₂ := by
  unfold ltrim at *
  rw [List.dropWhile_append, h]
  simp [List.isEmpty_iff, hne]

theorem rtrim_append_right {l₁ l₂ : List Char} (h : rtrim l₂ = l₂) (hne : l₂ ≠ []) :
    rtrim (l₁ ++ l₂) = l₁ ++ l₂ := by
  have hrev : List.dropWhile pyIsSpace l₂.reverse = l₂.reverse := by
    have := congrArg List.reverse h
    simpa [rtrim] using this
  unfold rtrim
  rw [List.reverse_append, List.dropWhile_append, hrev]
  simp [List.isEmpty_iff, hne]

theorem rtrim_append_newline (l : List Char) : rtrim (l ++ ['\n']) = rtrim l := by
  have h : pyIsSpace '\n' = true := by decide
  simp [rtrim, List.reverse_append, List.dropWhile_cons, h]

theorem pyStrip_append_newline (l : List Char) : pyStrip (l ++ ['\n']) = pyStrip l := by
  unfold pyStrip
  rw [rtrim_append_newline]

theorem splitAfterNewline_prefix (pre rest : List Char)
    (h : ∀ c ∈ pre, ¬ c = '\n') :
    splitAfterNewline (pre ++ ['\n'] ++ rest) = some rest := by
  induction pre with
  | nil => simp [splitAfterNewline]
  | cons c pre ih =>
    have hc : ¬ c = '\n' := h c (by simp)
    simp only [List.cons_append, splitAfterNewline, if_neg hc]
    exact ih (fun c' hc' => h c' (by simp [hc']))

theorem splitAfterNewline_none (l : List Char) (h : ∀ c ∈ l, ¬ c = '\n') :
    splitAfterNewline l = none := by
  induction l with
  | nil => rfl
  | cons c l ih =>
    have hc : ¬ c = '\n' := h c (by simp)
    simp only [splitAfterNewline, if_neg hc]
    exact ih (fun c' hc' => h c' (by simp [hc']))

/- Claim C5, counterexample part.  The claim states that a wikitext at or
   under the 80000-character budget yields a prompt containing no truncation
   marker; but a short wikitext that itself contains the marker text is
   embedded verbatim, so the prompt does contain the marker. -/

/-- C5 counterexample: the wikitext consisting of exactly the truncation
marker text is 29 characters, well under the 80000-character budget, and is
embedded unchanged, yet the constructed prompt contains the truncation
marker — contradicting the claim that a prompt built from an at-or-under
budget wikitext contains no marker. -/
theorem c5_short_wikitext_with_marker :
    truncationMarker.length ≤ max_chars ∧
    truncateWikitext truncationMarker = truncationMarker ∧
    truncationMarker <:+: extractPrompt ("Germany".data) truncationMarker := by
  refine ⟨by decide, by decide, ?_⟩
  have ht : truncateWikitext truncationMarker = truncationMarker := by decide
  refine ⟨promptPart1 ++ "Germany".data ++ promptPart2, promptPart3, ?_⟩
  simp [extractPrompt, formatPrompt, ht, List.append_assoc]

/-- C5 amended: a wikitext strictly longer than the 80000-character budget is
truncated to the budget with the truncation marker appended, and the
resulting prompt contains the marker; a wikitext at or under the budget is
embedded unchanged — no marker is appended, the prompt is exactly the
template around the verbatim wikitext (so it contains the marker only if the
wikitext itself does). -/
theorem c5_truncation (name w : List Char) :
    (max_chars < w.length →
      truncateWikitext w = w.take max_chars ++ truncationMarker ∧
      truncationMarker <:+: extractPrompt name w) ∧
    (w.length ≤ max_chars →
      truncateWikitext w = w ∧
      extractPrompt name w =
        promptPart1 ++ name ++ promptPart2 ++ w ++ promptPart3) := by
  constructor
  · intro h
    have ht : truncateWikitext w = w.take max_chars ++ truncationMarker := by
      simp [truncateWikitext, h]
    refine ⟨ht, promptPart1 ++ name ++ promptPart2 ++ w.take max_chars, promptPart3, ?_⟩
    simp [extractPrompt, formatPrompt, ht, List.append_assoc]
  · intro h
    have ht : truncateWikitext w = w := by
      simp [truncateWikitext, Nat.not_lt.mpr h]
    exact ⟨ht, by simp [extractPrompt, formatPrompt, ht]⟩

/-- C5 witness: instantiating the amended truncation theorem at a wikitext of
80001 repeated characters shows truncation to the budget plus marker, and
the marker occurring in the prompt. -/
theorem c5_truncation_witness :
    truncateWikitext (List.replicate 80001 'a') =
      (List.replicate 80001 'a').take max_chars ++ truncationMarker ∧
    truncationMarker <:+: extractPrompt ("Italy".data) (List.replicate 80001 'a') :=
  (c5_truncation ("Italy".data) (List.replicate 80001 'a')).1
    (by rw [List.length_replicate]; decide)

/- Claim C6: fence-stripping then parsing equals direct parsing. -/

/-- C6: for every reply text J whose stripped form does not itself begin with
a code fence (true of every JSON text, which starts with a brace, bracket,
quote, digit, minus sign or letter) and every newline-free fence info
string, the extraction step's fence-stripping applied to J wrapped in a
leading and trailing markdown code fence yields exactly the same text as
applied to J alone; hence json.loads — a function of that text — parses both
replies to the same value. -/
theorem c6_fence_stripping (info J : List Char)
    (hinfo : ∀ c ∈ info, ¬ c = '\n')
    (hJ : fenceChars.isPrefixOf (pyStrip J) = false) :
    stripCodeFence (wrapFence info J) = stripCodeFence J ∧
    ∀ parse : List Char → Option JsonVal,
      (stripCodeFence (wrapFence info J)).toOption.bind parse =
        (stripCodeFence J).toOption.bind parse := by
  have hfence_ne : fenceChars ≠ [] := by decide
  have hltrim_fence : ltrim fenceChars = fenceChars := by decide
  have hrtrim_fence : rtrim fenceChars = fenceChars := by decide
  -- the wrapped reply is already stripped: it starts and ends with a backtick
  have hstrip : pyStrip (wrapFence info J) = wrapFence info J := by
    unfold pyStrip wrapFence
    rw [show fenceChars ++ info ++ ['\n'] ++ J ++ ['\n'] ++ fenceChars =
          (fenceChars ++ info ++ ['\n'] ++ J ++ ['\n']) ++ fenceChars by
        simp [List.append_assoc]]
    rw [rtrim_append_right hrtrim_fence hfence_ne]
    rw [show (fenceChars ++ info ++ ['\n'] ++ J ++ ['\n']) ++ fenceChars =
          fenceChars ++ (info ++ ['\n'] ++ J ++ ['\n'] ++ fenceChars) by
        simp [List.append_assoc]]
    rw [ltrim_append_left hltrim_fence hfence_ne]
  have hpre : fenceChars.isPrefixOf (wrapFence info J) = true := by
    rw [List.isPrefixOf_iff_prefix]
    unfold wrapFence
    rw [show fenceChars ++ info ++ ['\n'] ++ J ++ ['\n'] ++ fenceChars =
          fenceChars ++ (info ++ ['\n'] ++ J ++ ['\n'] ++ fenceChars) by
        simp [List.append_assoc]]
    exact List.prefix_append _ _
  have hsplit : splitAfterNewline (wrapFence info J) =
      some (J ++ ['\n'] ++ fenceChars) := by
    unfold wrapFence
    rw [show fenceChars ++ info ++ ['\n'] ++ J ++ ['\n'] ++ fenceChars =
          (fenceChars ++ info) ++ ['\n'] ++ (J ++ ['\n'] ++ fenceChars) by
        simp [List.append_assoc]]
    refine splitAfterNewline_prefix _ _ ?_
    intro c hc
    rcases List.mem_append.mp hc with h | h
    · exact (by decide : ∀ c ∈ fenceChars, ¬ c = '\n') c h
    · exact hinfo c h
  have hsuf : fenceChars.isSuffixOf (J ++ ['\n'] ++ fenceChars) = true := by
    rw [List.isSuffixOf_iff_suffix]
    exact List.suffix_append _ _
  have htake : (J ++ ['\n'] ++ fenceChars).take ((J ++ ['\n'] ++ fenceChars).length - 3) =
      J ++ ['\n'] := by
    have hf3 : fenceChars.length = 3 := by decide
    have hlen : (J ++ ['\n'] ++ fenceChars).length = J.length + 1 + 3 := by
      simp [hf3]
    rw [hlen, Nat.add_sub_cancel]
    exact List.take_left' (by simp)
  have hW : stripCodeFence (wrapFence info J) = Except.ok (pyStrip J) := by
    unfold stripCodeFence
    rw [hstrip]
    simp only [hpre, if_true, hsplit, hsuf, htake]
    rw [pyStrip_append_newline]
  have hJ' : stripCodeFence J = Except.ok (pyStrip J) := by
    unfold stripCodeFence
    simp [hJ]
  refine ⟨hW.trans hJ'.symm, fun parse => ?_⟩
  rw [hW, hJ']

/-- C6 witness: the theorem applied to the JSON object text consisting of a
key "a" with value 1, wrapped in a fence with info string json, parses like
the bare text. -/
theorem c6_fence_stripping_witness :
    stripCodeFence (wrapFence ("json".data) ("\x7b\"a\": 1\x7d".data)) =
      stripCodeFence ("\x7b\"a\": 1\x7d".data) :=
  (c6_fence_stripping ("json".data) ("\x7b\"a\": 1\x7d".data)
    (by decide) (by decide)).1

/- Claim C7: the single rate-limit backoff-and-retry in the fetch step. -/

/-- C7: the fetcher sleeps the fixed inter-request delay and issues one GET;
exactly when the first response has the rate-limit status 429 it sleeps the
server-specified Retry-After duration (60 seconds when the header is absent)
and retries the identical request once more; any other first status yields a
single GET and no retry sleep. -/
theorem c7_rate_limit_retry (sfx : String) (r1 r2 : HttpResponse) :
    (r1.status = 429 →
      (fetch_article_wikitext sfx r1 r2).1 =
        [FetchEvent.sleepDelay,
         FetchEvent.httpGet ("Vehicle_registration_plates_of_" ++ sfx),
         FetchEvent.sleepRetry (r1.retryAfter.getD 60),
         FetchEvent.httpGet ("Vehicle_registration_plates_of_" ++ sfx)]) ∧
    (¬ r1.status = 429 →
      (fetch_article_wikitext sfx r1 r2).1 =
        [FetchEvent.sleepDelay,
         FetchEvent.httpGet ("Vehicle_registration_plates_of_" ++ sfx)]) := by
  constructor <;> intro h <;>
    · unfold fetch_article_wikitext
      simp only [h, if_true, if_false, reduceIte]
      split <;> first | rfl | split <;> rfl

/-- C7 witness: a first response with status 429 and no Retry-After header
produces delay, GET, a 60-second retry sleep and a second GET; a first
response with status 200 produces a single delay and GET. -/
theorem c7_rate_limit_retry_witness :
    (fetch_article_wikitext "Italy" ⟨429, none, JsonVal.null⟩
        ⟨200, none, JsonVal.obj []⟩).1 =
      [FetchEvent.sleepDelay,
       FetchEvent.httpGet "Vehicle_registration_plates_of_Italy",
       FetchEvent.sleepRetry 60,
       FetchEvent.httpGet "Vehicle_registration_plates_of_Italy"] ∧
    (fetch_article_wikitext "Italy" ⟨200, none, JsonVal.obj []⟩
        ⟨200, none, JsonVal.obj []⟩).1 =
      [FetchEvent.sleepDelay,
       FetchEvent.httpGet "Vehicle_registration_plates_of_Italy"] :=
  ⟨(c7_rate_limit_retry "Italy" ⟨429, none, JsonVal.null⟩
      ⟨200, none, JsonVal.obj []⟩).1 rfl,
   (c7_rate_limit_retry "Italy" ⟨200, none, JsonVal.obj []⟩
      ⟨200, none, JsonVal.obj []⟩).2 (by decide)⟩

/- Claim C10: a fenced reply without a newline crashes fence stripping. -/

/-- C10: any model reply whose stripped text begins with the three-backtick
fence but contains no newline makes the fence-stripping step raise an
IndexError (split with separator newline yields a one-element list, and
index 1 is out of range); IndexError is not one of the two exception kinds
caught by the per-country try/except, so in the loop an extraction attempt
raising it aborts the run without incrementing the failure counter. -/
theorem c10_fence_without_newline (raw : List Char)
    (h1 : fenceChars.isPrefixOf (pyStrip raw) = true)
    (h2 : ∀ c ∈ pyStrip raw, ¬ c = '\n') :
    stripCodeFence raw = Except.error PyExc.indexError ∧
    caughtByLoop PyExc.indexError = false ∧
    ∀ (cfg : Cfg) (iso : String) (ci : CountryInfo)
      (rest : List (String × CountryInfo)) (st : St),
      ((dictLookup iso st.entries).isSome && !cfg.singleCountry) = false →
      cfg.fetchO iso = FetchOutcome.found →
      cfg.dryRun = false →
      cfg.extractO iso = ExtractOutcome.raiseExc PyExc.indexError →
      ∃ st', runLoop cfg ((iso, ci) :: rest) st =
          LoopRes.raised PyExc.indexError st' ∧ st'.nFailed = st.nFailed := by
  refine ⟨?_, rfl, ?_⟩
  · have hs := splitAfterNewline_none _ h2
    unfold stripCodeFence
    simp [h1, hs]
  · intro cfg iso ci rest st hskip hf hd he
    have hr : runLoop cfg ((iso, ci) :: rest) st =
        LoopRes.raised PyExc.indexError
          { st with events := st.events ++ [Event.fetchCall iso ci.suffix]
              ++ [Event.llmCall iso] } := by
      simp [runLoop, hskip, hf, hd, he, caughtByLoop, List.append_assoc]
    exact ⟨_, hr, rfl⟩

/-- C10 witness: the reply consisting of a fence directly followed by text
and no newline hits the IndexError, and a loop whose extraction raises that
IndexError aborts with it, failure counter untouched. -/
theorem c10_fence_without_newline_witness :
    stripCodeFence ("```abc".data) = Except.error PyExc.indexError ∧
    caughtByLoop PyExc.indexError = false ∧
    (∃ st', runLoop
        ⟨false, true, fun _ => FetchOutcome.found,
         fun _ => ExtractOutcome.raiseExc PyExc.indexError⟩
        [("DE", ⟨"Germany", "Germany"⟩)] ⟨[], 0, 0, 0, 1, none, []⟩ =
        LoopRes.raised PyExc.indexError st' ∧ st'.nFailed = 0) := by
  obtain ⟨a, b, c⟩ :=
    c10_fence_without_newline ("```abc".data) (by decide) (by decide)
  exact ⟨a, b, c _ "DE" ⟨"Germany", "Germany"⟩ [] ⟨[], 0, 0, 0, 1, none, []⟩
    (by decide) rfl rfl rfl⟩

/- Auxiliary lemmas about the loop model. -/

theorem dictLookup_dictSet_ne {α : Type} (k k' : String) (v : α)
    (l : List (String × α)) (h : ¬ k' = k) :
    dictLookup k (dictSet k' v l) = dictLookup k l := by
  induction l with
  | nil => simp [dictLookup, dictSet, h]
  | cons p rest ih =>
    obtain ⟨a, b⟩ := p
    by_cases ha : a = k'
    · subst ha
      simp [dictLookup, dictSet, h]
    · simp [dictLookup, dictSet, ha, ih]

theorem runLoop_events_mono (cfg : Cfg) :
    ∀ (l : List (String × CountryInfo)) (st : St) (e : Event),
      e ∈ st.events → e ∈ (runLoop cfg l st).st.events := by
  intro l
  induction l with
  | nil => intro st e he; exact he
  | cons p rest ih =>
    intro st e he
    obtain ⟨iso, ci⟩ := p
    rw [runLoop]
    repeat' split
    all_goals
      first
      | exact ih _ e he
      | exact ih _ e (List.mem_append_left _ he)
      | exact ih _ e (List.mem_append_left _ (List.mem_append_left _ he))
      | exact List.mem_append_left _ he
      | exact List.mem_append_left _ (List.mem_append_left _ he)

theorem runLoop_no_client (cfg : Cfg) :
    ∀ (l : List (String × CountryInfo)) (st : St),
      Event.clientCreate ∉ st.events →
      Event.clientCreate ∉ (runLoop cfg l st).st.events := by
  intro l
  induction l with
  | nil => intro st he; exact he
  | cons p rest ih =>
    intro st he
    obtain ⟨iso, ci⟩ := p
    have h1 : Event.clientCreate ∉ st.events ++ [Event.fetchCall iso ci.suffix] := by
      simp [List.mem_append, he]
    have h2 : Event.clientCreate ∉
        st.events ++ [Event.fetchCall iso ci.suffix] ++ [Event.llmCall iso] := by
      simp [List.mem_append, he]
    rw [runLoop]
    repeat' split
    all_goals
      first
      | exact ih _ he
      | exact ih _ h1
      | exact ih _ h2
      | exact h1
      | exact h2

theorem runLoop_no_llm_of_dry (cfg : Cfg) (hdry : cfg.dryRun = true) (iso0 : String) :
    ∀ (l : List (String × CountryInfo)) (st : St),
      Event.llmCall iso0 ∉ st.events →
      Event.llmCall iso0 ∉ (runLoop cfg l st).st.events := by
  intro l
  induction l with
  | nil => intro st he; exact he
  | cons p rest ih =>
    intro st he
    obtain ⟨iso, ci⟩ := p
    have h1 : Event.llmCall iso0 ∉ st.events ++ [Event.fetchCall iso ci.suffix] := by
      simp [List.mem_append, he]
    rw [runLoop]
    repeat' split
    all_goals first
      | exact ih _ he
      | exact ih _ h1
      | exact h1

/- The preservation invariant behind claim C3: with no single-country
   selection, an ISO code already present in the entries dict keeps its
   value in the dict and in every written document, is never fetched and
   never sent to the LLM, and the document stays existent. -/
theorem runLoop_preserved_entry (cfg : Cfg) (hsc : cfg.singleCountry = false)
    (iso : String) (v : JsonVal) :
    ∀ (l : List (String × CountryInfo)) (st : St),
      dictLookup iso st.entries = some v →
      (∀ d, st.file = some d → dictLookup iso d.entries = some v) →
      (∀ sfx, Event.fetchCall iso sfx ∉ st.events) →
      Event.llmCall iso ∉ st.events →
      st.file.isSome = true →
      dictLookup iso (runLoop cfg l st).st.entries = some v ∧
      (∀ d, (runLoop cfg l st).st.file = some d →
        dictLookup iso d.entries = some v) ∧
      (∀ sfx, Event.fetchCall iso sfx ∉ (runLoop cfg l st).st.events) ∧
      Event.llmCall iso ∉ (runLoop cfg l st).st.events ∧
      (runLoop cfg l st).st.file.isSome = true := by
  intro l
  induction l with
  | nil => intro st h1 h2 h3 h4 h5; exact ⟨h1, h2, h3, h4, h5⟩
  | cons p rest ih =>
    intro st h1 h2 h3 h4 h5
    obtain ⟨iso', ci⟩ := p
    rw [runLoop]
    by_cases hskip : ((dictLookup iso' st.entries).isSome && !cfg.singleCountry) = true
    · rw [if_pos hskip]
      exact ih _ h1 h2 h3 h4 h5
    · rw [if_neg hskip]
      have hnone : dictLookup iso' st.entries = none := by
        rcases h : dictLookup iso' st.entries with _ | w
        · rfl
        · exact absurd (by simp [h, hsc]) hskip
      have hne : ¬ iso' = iso := by
        intro h
        rw [h, h1] at hnone
        exact Option.some_ne_none v hnone
      have h3' : ∀ sfx, Event.fetchCall iso sfx ∉
          st.events ++ [Event.fetchCall iso' ci.suffix] := by
        intro sfx hmem
        rcases List.mem_append.mp hmem with hm | hm
        · exact h3 sfx hm
        · simp only [List.mem_singleton, Event.fetchCall.injEq] at hm
          exact hne hm.1.symm
      have h4' : Event.llmCall iso ∉
          st.events ++ [Event.fetchCall iso' ci.suffix] := by
        intro hmem
        rcases List.mem_append.mp hmem with hm | hm
        · exact h4 hm
        · simp at hm
      have h3'' : ∀ sfx, Event.fetchCall iso sfx ∉
          st.events ++ [Event.fetchCall iso' ci.suffix] ++ [Event.llmCall iso'] := by
        intro sfx hmem
        rcases List.mem_append.mp hmem with hm | hm
        · exact h3' sfx hm
        · simp at hm
      have h4'' : Event.llmCall iso ∉
          st.events ++ [Event.fetchCall iso' ci.suffix] ++ [Event.llmCall iso'] := by
        intro hmem
        rcases List.mem_append.mp hmem with hm | hm
        · exact h4' hm
        · simp only [List.mem_singleton, Event.llmCall.injEq] at hm
          exact hne hm.symm
      cases hf : cfg.fetchO iso' with
      | raiseStatus s => exact ⟨h1, h2, h3', h4', h5⟩
      | notFound => exact ih _ h1 h2 h3' h4' h5
      | found =>
        dsimp only
        by_cases hdry : cfg.dryRun = true
        · rw [if_pos hdry]
          exact ih _ h1 h2 h3' h4' h5
        · rw [if_neg hdry]
          cases he : cfg.extractO iso' with
          | raiseExc e =>
            dsimp only
            by_cases hc : caughtByLoop e = true
            · rw [if_pos hc]
              exact ih _ h1 h2 h3'' h4'' h5
            · rw [if_neg hc]
              exact ⟨h1, h2, h3'', h4'', h5⟩
          | returned r =>
            rcases r with _ | fields
            · exact ih _ h1 h2 h3'' h4'' h5
            · rcases fields with _ | ⟨f, fs⟩
              · exact ih _ h1 h2 h3'' h4'' h5
              · have hl : dictLookup iso
                    (dictSet iso'
                      (JsonVal.obj (augmentResult (f :: fs) iso' ci.name ci.suffix st.tick))
                      st.entries) = some v := by
                  rw [dictLookup_dictSet_ne _ _ _ _ hne]
                  exact h1
                exact ih _ hl (fun d hd => by cases hd; exact hl) h3'' h4'' rfl

theorem runFromLoop_preserves (inp : RunInput) (ev0 : List Event)
    (cl : List (String × CountryInfo)) (iso : String) (v : JsonVal) (d : Doc)
    (hsel : countrySelected inp = false)
    (hf : inp.file = some d) (hv : dictLookup iso d.entries = some v)
    (hev1 : ∀ sfx, Event.fetchCall iso sfx ∉ ev0)
    (hev2 : Event.llmCall iso ∉ ev0) :
    (∃ d', (runFromLoop inp ev0 cl).file = some d' ∧
      dictLookup iso d'.entries = some v) ∧
    (∀ sfx, Event.fetchCall iso sfx ∉ (runFromLoop inp ev0 cl).events) ∧
    Event.llmCall iso ∉ (runFromLoop inp ev0 cl).events := by
  have hinit : initialEntries inp = d.entries := by
    unfold initialEntries
    rw [hf, hsel]
    simp
  have h1p : dictLookup iso
      ((⟨initialEntries inp, 0, 0, 0, 1, inp.file, ev0⟩ : St)).entries = some v := by
    show dictLookup iso (initialEntries inp) = some v
    rw [hinit]; exact hv
  have h2p : ∀ d', (⟨initialEntries inp, 0, 0, 0, 1, inp.file, ev0⟩ : St).file = some d' →
      dictLookup iso d'.entries = some v := by
    intro d' hd'
    rw [hf] at hd'
    cases Option.some.inj hd'
    exact hv
  have h5p : (⟨initialEntries inp, 0, 0, 0, 1, inp.file, ev0⟩ : St).file.isSome = true := by
    show inp.file.isSome = true
    rw [hf]; rfl
  obtain ⟨g1, g2, g3, g4, g5⟩ :=
    runLoop_preserved_entry ⟨inp.dryRun, countrySelected inp, inp.fetchO, inp.extractO⟩
      hsel iso v cl ⟨initialEntries inp, 0, 0, 0, 1, inp.file, ev0⟩
      h1p h2p hev1 hev2 h5p
  cases hres : runLoop ⟨inp.dryRun, countrySelected inp, inp.fetchO, inp.extractO⟩ cl
      ⟨initialEntries inp, 0, 0, 0, 1, inp.file, ev0⟩ with
  | raised e st =>
    rw [hres] at g2 g3 g4 g5
    dsimp only [LoopRes.st] at g2 g3 g4 g5
    unfold runFromLoop
    dsimp only
    rw [hres]
    obtain ⟨d'', hd''⟩ := Option.isSome_iff_exists.mp g5
    exact ⟨⟨d'', hd'', g2 d'' hd''⟩, g3, g4⟩
  | finished st =>
    rw [hres] at g1 g2 g3 g4 g5
    dsimp only [LoopRes.st] at g1 g2 g3 g4 g5
    unfold runFromLoop
    dsimp only
    rw [hres]
    dsimp only
    by_cases hdry : inp.dryRun = true
    · rw [if_pos hdry]
      obtain ⟨d'', hd''⟩ := Option.isSome_iff_exists.mp g5
      exact ⟨⟨d'', hd'', g2 d'' hd''⟩, g3, g4⟩
    · rw [if_neg hdry]
      exact ⟨⟨⟨st.tick, st.entries⟩, rfl, g1⟩, g3, g4⟩

/- Claim C3: additive merge and idempotent skip on runs without the
   single-country flag. -/

/-- C3: in every run without the single-country flag, an ISO code holding an
entry in the persisted document at the start keeps exactly that entry in the
document at the end of the run — whether the run aborts early, raises
mid-loop, or completes — and no fetch and no LLM call ever happens for that
code. -/
theorem c3_resume_preserves_and_skips (inp : RunInput) (iso : String)
    (v : JsonVal) (d : Doc)
    (hc : inp.country = none) (hf : inp.file = some d)
    (hv : dictLookup iso d.entries = some v) :
    (∃ d', (PlateLab.main inp).file = some d' ∧
      dictLookup iso d'.entries = some v) ∧
    (∀ sfx, Event.fetchCall iso sfx ∉ (PlateLab.main inp).events) ∧
    Event.llmCall iso ∉ (PlateLab.main inp).events := by
  have hsel : countrySelected inp = false := by
    unfold countrySelected
    rw [hc]
  unfold main
  by_cases hk : (inp.apiKey.isNone && !inp.dryRun) = true
  · rw [if_pos hk]
    exact ⟨⟨d, hf, hv⟩,
      fun sfx => by simp [missingKeyEvents],
      by simp [missingKeyEvents]⟩
  · rw [if_neg hk]
    rw [hc]
    dsimp only
    exact runFromLoop_preserves inp _ COUNTRIES iso v d hsel hf hv
      (fun sfx => by split <;> simp) (by split <;> simp)

/-- C3 witness: a resumed run (dry, no key needed) over a document holding an
entry for IT, with all 44 articles reported missing, keeps the IT entry in
the final document and never fetches or extracts IT. -/
theorem c3_resume_preserves_and_skips_witness :
    (∃ d', (PlateLab.main c3Input).file = some d' ∧
      dictLookup "IT" d'.entries = some JsonVal.null) ∧
    (∀ sfx, Event.fetchCall "IT" sfx ∉ (PlateLab.main c3Input).events) ∧
    Event.llmCall "IT" ∉ (PlateLab.main c3Input).events :=
  c3_resume_preserves_and_skips c3Input "IT" JsonVal.null
    ⟨0, [("IT", JsonVal.null)]⟩ rfl rfl rfl

/- Claim C8: dry-run never creates the LLM client, never calls the LLM, and
   never aborts for a missing credential. -/

theorem runFromLoop_dry (inp : RunInput) (cl : List (String × CountryInfo))
    (h : inp.dryRun = true) :
    Event.clientCreate ∉ (runFromLoop inp [] cl).events ∧
    (∀ iso, Event.llmCall iso ∉ (runFromLoop inp [] cl).events) ∧
    (runFromLoop inp [] cl).outcome ≠ RunOutcome.missingKey := by
  have hcl := runLoop_no_client
    ⟨inp.dryRun, countrySelected inp, inp.fetchO, inp.extractO⟩ cl
    ⟨initialEntries inp, 0, 0, 0, 1, inp.file, []⟩ (by simp)
  have hllm := fun iso => runLoop_no_llm_of_dry
    ⟨inp.dryRun, countrySelected inp, inp.fetchO, inp.extractO⟩ h iso cl
    ⟨initialEntries inp, 0, 0, 0, 1, inp.file, []⟩ (by simp)
  cases hres : runLoop ⟨inp.dryRun, countrySelected inp, inp.fetchO, inp.extractO⟩ cl
      ⟨initialEntries inp, 0, 0, 0, 1, inp.file, []⟩ with
  | raised e st =>
    rw [hres] at hcl hllm
    dsimp only [LoopRes.st] at hcl hllm
    unfold runFromLoop
    dsimp only
    rw [hres]
    exact ⟨hcl, hllm, by simp⟩
  | finished st =>
    rw [hres] at hcl hllm
    dsimp only [LoopRes.st] at hcl hllm
    unfold runFromLoop
    dsimp only
    rw [hres]
    dsimp only
    rw [if_pos h]
    exact ⟨hcl, hllm, by simp⟩

/-- C8: in every dry-run invocation, whatever the country flag, the API key
and the oracles, no LLM client is created, no LLM extraction call happens,
and the run never aborts with the missing-credential error — even when no
API key is present in the environment. -/
theorem c8_dry_run_never_extracts (inp : RunInput) (h : inp.dryRun = true) :
    Event.clientCreate ∉ (PlateLab.main inp).events ∧
    (∀ iso, Event.llmCall iso ∉ (PlateLab.main inp).events) ∧
    (PlateLab.main inp).outcome ≠ RunOutcome.missingKey := by
  unfold main
  have hcond : ¬ ((inp.apiKey.isNone && !inp.dryRun) = true) := by
    rw [h]; simp
  rw [if_neg hcond]
  dsimp only
  rw [if_pos h]
  cases hc : inp.country with
  | none => exact runFromLoop_dry inp COUNTRIES h
  | some c =>
    dsimp only
    by_cases hce : c.isEmpty = true
    · rw [if_pos hce]
      exact runFromLoop_dry inp COUNTRIES h
    · rw [if_neg hce]
      cases hlk : dictLookup (pyUpper c) COUNTRIES with
      | none =>
        refine ⟨?_, ?_, by simp⟩
        · intro hmem
          simp [tableLines] at hmem
        · intro iso hmem
          simp [tableLines] at hmem
      | some ci => exact runFromLoop_dry inp [(pyUpper c, ci)] h

/-- C8 witness: a dry run restricted to DE with no API key set creates no
client, makes no LLM call, and does not abort for the missing credential. -/
theorem c8_dry_run_never_extracts_witness :
    Event.clientCreate ∉ (PlateLab.main c8Input).events ∧
    (∀ iso, Event.llmCall iso ∉ (PlateLab.main c8Input).events) ∧
    (PlateLab.main c8Input).outcome ≠ RunOutcome.missingKey :=
  c8_dry_run_never_extracts c8Input rfl

/- Claim C2: per-country failure isolation. -/

/-- C2 counterexample: in a full run whose first fetch (AL) answers with an
HTTP 500, the run aborts with the uncaught HTTPError — the failure counter
stays 0 and the next country (AD) is never fetched — contradicting the claim
that a fetch failure increments the counter and the loop advances. -/
theorem c2_http_error_aborts_batch :
    (PlateLab.main c2Input).outcome = RunOutcome.raised (PyExc.httpError 500) ∧
    (PlateLab.main c2Input).nFailed = 0 ∧
    Event.fetchCall "AD" "Andorra" ∉ (PlateLab.main c2Input).events :=
  ⟨rfl, rfl, by decide⟩

/-- C2 amended: a missing article, a malformed model response
(json.JSONDecodeError) and an upstream API error (openai.APIError) each
increment the failure counter and the loop advances to the next country; but
a fetch failure with a non-success HTTP status raises out of the loop and
aborts the whole batch without incrementing the counter. -/
theorem c2_failure_isolation (cfg : Cfg) (iso : String) (ci : CountryInfo)
    (rest : List (String × CountryInfo)) (st : St)
    (hskip : ((dictLookup iso st.entries).isSome && !cfg.singleCountry) = false) :
    (cfg.fetchO iso = FetchOutcome.notFound →
      runLoop cfg ((iso, ci) :: rest) st =
        runLoop cfg rest
          { st with nFailed := st.nFailed + 1,
                    events := st.events ++ [Event.fetchCall iso ci.suffix] }) ∧
    (cfg.dryRun = false → cfg.fetchO iso = FetchOutcome.found →
      cfg.extractO iso = ExtractOutcome.raiseExc PyExc.jsonDecodeError →
      runLoop cfg ((iso, ci) :: rest) st =
        runLoop cfg rest
          { st with nFailed := st.nFailed + 1,
                    events := st.events ++ [Event.fetchCall iso ci.suffix] ++ [Event.llmCall iso] }) ∧
    (cfg.dryRun = false → cfg.fetchO iso = FetchOutcome.found →
      cfg.extractO iso = ExtractOutcome.raiseExc PyExc.apiError →
      runLoop cfg ((iso, ci) :: rest) st =
        runLoop cfg rest
          { st with nFailed := st.nFailed + 1,
                    events := st.events ++ [Event.fetchCall iso ci.suffix] ++ [Event.llmCall iso] }) ∧
    (∀ s, cfg.fetchO iso = FetchOutcome.raiseStatus s →
      runLoop cfg ((iso, ci) :: rest) st =
        LoopRes.raised (PyExc.httpError s)
          { st with events := st.events ++ [Event.fetchCall iso ci.suffix] }) := by
  have hn : ¬ (((dictLookup iso st.entries).isSome && !cfg.singleCountry) = true) := by
    rw [hskip]
    exact Bool.false_ne_true
  refine ⟨?_, ?_, ?_, ?_⟩
  · intro hf
    rw [runLoop, if_neg hn, hf]
  · intro hd hf he
    rw [runLoop, if_neg hn, hf]
    dsimp only
    rw [if_neg (by rw [hd]; exact Bool.false_ne_true), he]
    rfl
  · intro hd hf he
    rw [runLoop, if_neg hn, hf]
    dsimp only
    rw [if_neg (by rw [hd]; exact Bool.false_ne_true), he]
    rfl
  · intro s hf
    rw [runLoop, if_neg hn, hf]

/-- C2 witness: at a concrete state with empty entries, a missing article for
AL increments the counter and the loop goes on, while a 500 status on AL
aborts the loop with the HTTPError. -/
theorem c2_failure_isolation_witness :
    (runLoop ⟨false, false, fun _ => FetchOutcome.notFound,
        fun _ => ExtractOutcome.returned none⟩
      [("AL", ⟨"Albania", "Albania"⟩)] ⟨[], 0, 0, 0, 1, none, []⟩ =
      runLoop ⟨false, false, fun _ => FetchOutcome.notFound,
          fun _ => ExtractOutcome.returned none⟩
        [] ⟨[], 0, 1, 0, 1, none, [Event.fetchCall "AL" "Albania"]⟩) ∧
    (runLoop ⟨false, false, fun _ => FetchOutcome.raiseStatus 500,
        fun _ => ExtractOutcome.returned none⟩
      [("AL", ⟨"Albania", "Albania"⟩)] ⟨[], 0, 0, 0, 1, none, []⟩ =
      LoopRes.raised (PyExc.httpError 500)
        ⟨[], 0, 0, 0, 1, none, [Event.fetchCall "AL" "Albania"]⟩) :=
  ⟨(c2_failure_isolation ⟨false, false, fun _ => FetchOutcome.notFound,
      fun _ => ExtractOutcome.returned none⟩
      "AL" ⟨"Albania", "Albania"⟩ [] ⟨[], 0, 0, 0, 1, none, []⟩ rfl).1 rfl,
   (c2_failure_isolation ⟨false, false, fun _ => FetchOutcome.raiseStatus 500,
      fun _ => ExtractOutcome.returned none⟩
      "AL" ⟨"Albania", "Albania"⟩ [] ⟨[], 0, 0, 0, 1, none, []⟩ rfl).2.2.2 500 rfl⟩

/- Claim C4: the final write after the loop. -/

/-- C4 counterexample: a dry run that processes all 44 countries to the end
of the loop leaves no document at all — the final write is guarded by the
dry-run flag — contradicting the claim that the document is written once
more after the loop including in dry-run mode. -/
theorem c4_dry_run_no_final_write :
    (PlateLab.main c4Input).outcome = RunOutcome.done ∧
    (PlateLab.main c4Input).nSuccess = 44 ∧
    (PlateLab.main c4Input).file = none :=
  ⟨rfl, rfl, rfl⟩

theorem runFromLoop_final_write (inp : RunInput) (ev0 : List Event)
    (cl : List (String × CountryInfo)) (hd : inp.dryRun = false)
    (ho : (runFromLoop inp ev0 cl).outcome = RunOutcome.done) :
    ∃ d, (runFromLoop inp ev0 cl).file = some d ∧
      d.entries = (runFromLoop inp ev0 cl).entries ∧
      d.generatedAt + 1 = (runFromLoop inp ev0 cl).tick := by
  cases hres : runLoop ⟨inp.dryRun, countrySelected inp, inp.fetchO, inp.extractO⟩ cl
      ⟨initialEntries inp, 0, 0, 0, 1, inp.file, ev0⟩ with
  | raised e st =>
    unfold runFromLoop at ho
    dsimp only at ho
    rw [hres] at ho
    exact absurd ho (by simp)
  | finished st =>
    unfold runFromLoop
    dsimp only
    rw [hres]
    dsimp only
    rw [if_neg (by rw [hd]; exact Bool.false_ne_true)]
    exact ⟨⟨st.tick, st.entries⟩, rfl, rfl, rfl⟩

/-- C4 amended: in every non-dry run that reaches the end of the country
loop, the document is written once more after the loop: the final file holds
exactly the in-memory entries under a generation timestamp that is the
freshest tick of the run; in dry-run mode no final write happens. -/
theorem c4_final_write (inp : RunInput) (hd : inp.dryRun = false)
    (ho : (PlateLab.main inp).outcome = RunOutcome.done) :
    ∃ d, (PlateLab.main inp).file = some d ∧
      d.entries = (PlateLab.main inp).entries ∧
      d.generatedAt + 1 = (PlateLab.main inp).tick := by
  unfold main at ho ⊢
  by_cases hk : (inp.apiKey.isNone && !inp.dryRun) = true
  · rw [if_pos hk] at ho
    exact absurd ho (by simp)
  · rw [if_neg hk] at ho ⊢
    dsimp only at ho ⊢
    cases hc : inp.country with
    | none =>
      rw [hc] at ho
      exact runFromLoop_final_write inp _ COUNTRIES hd ho
    | some c =>
      rw [hc] at ho
      dsimp only at ho ⊢
      by_cases hce : c.isEmpty = true
      · rw [if_pos hce] at ho ⊢
        exact runFromLoop_final_write inp _ COUNTRIES hd ho
      · rw [if_neg hce] at ho ⊢
        cases hlk : dictLookup (pyUpper c) COUNTRIES with
        | none =>
          rw [hlk] at ho
          dsimp only at ho
          exact absurd ho (by simp)
        | some ci =>
          rw [hlk] at ho
          exact runFromLoop_final_write inp _ [(pyUpper c, ci)] hd ho

/-- C4 witness: a non-dry single-country run whose article is missing still
ends with the final write: the resulting document carries the freshest tick
and the (empty) in-memory entries. -/
theorem c4_final_write_witness :
    ∃ d, (PlateLab.main c4WitnessInput).file = some d ∧
      d.entries = (PlateLab.main c4WitnessInput).entries ∧
      d.generatedAt + 1 = (PlateLab.main c4WitnessInput).tick :=
  c4_final_write c4WitnessInput rfl (by decide)

/- Claim C1: forced single-country refresh. -/

/-- C1 counterexample: a --country DE run over a persisted document that
already holds an entry for IT completes successfully, but the final document
no longer contains the IT entry at all: in single-country mode the prior
document is never loaded, and the write replaces the file with the in-memory
entries, which hold only DE.  This contradicts the claim that entries for
other ISO codes are unchanged. -/
theorem c1_single_country_wipes_others :
    (PlateLab.main c1Input).outcome = RunOutcome.done ∧
    (PlateLab.main c1Input).nSuccess = 1 ∧
    (PlateLab.main c1Input).file.map (fun d => dictLookup "IT" d.entries) =
      some none :=
  ⟨rfl, rfl, rfl⟩

theorem runLoop_single (cfg : Cfg) (code : String) (ci : CountryInfo) (st : St)
    (hsc : cfg.singleCountry = true) (hd : cfg.dryRun = false)
    (hentries : st.entries = []) :
    Event.fetchCall code ci.suffix ∈ (runLoop cfg [(code, ci)] st).st.events ∧
    ∀ st', runLoop cfg [(code, ci)] st = LoopRes.finished st' →
      ∀ iso, ¬ iso = code → dictLookup iso st'.entries = none := by
  have hskipn : ¬ (((dictLookup code st.entries).isSome && !cfg.singleCountry) = true) := by
    rw [hsc]
    simp
  rw [runLoop, if_neg hskipn]
  cases hf : cfg.fetchO code with
  | raiseStatus s =>
    refine ⟨by simp [LoopRes.st], ?_⟩
    intro st' h'
    exact LoopRes.noConfusion h'
  | notFound =>
    refine ⟨by simp [runLoop, LoopRes.st], ?_⟩
    intro st' h'
    cases LoopRes.finished.inj h'
    intro iso hne
    simp [hentries, dictLookup]
  | found =>
    dsimp only
    rw [if_neg (by rw [hd]; exact Bool.false_ne_true)]
    cases he : cfg.extractO code with
    | raiseExc e =>
      dsimp only
      by_cases hcb : caughtByLoop e = true
      · rw [if_pos hcb]
        refine ⟨by simp [runLoop, LoopRes.st], ?_⟩
        intro st' h'
        cases LoopRes.finished.inj h'
        intro iso hne
        simp [hentries, dictLookup]
      · rw [if_neg hcb]
        refine ⟨by simp [LoopRes.st], ?_⟩
        intro st' h'
        exact LoopRes.noConfusion h'
    | returned r =>
      rcases r with _ | fields
      · refine ⟨by simp [runLoop, LoopRes.st], ?_⟩
        intro st' h'
        cases LoopRes.finished.inj h'
        intro iso hne
        simp [hentries, dictLookup]
      · rcases fields with _ | ⟨f, fs⟩
        · refine ⟨by simp [runLoop, LoopRes.st], ?_⟩
          intro st' h'
          cases LoopRes.finished.inj h'
          intro iso hne
          simp [hentries, dictLookup]
        · refine ⟨by simp [runLoop, LoopRes.st], ?_⟩
          intro st' h'
          cases LoopRes.finished.inj h'
          intro iso hne
          have hcne : ¬ code = iso := fun h => hne h.symm
          rw [hentries]
          simp [dictSet, dictLookup, hcne]

theorem runFromLoop_single (inp : RunInput) (ev0 : List Event)
    (code : String) (ci : CountryInfo)
    (hsel : countrySelected inp = true) (hd : inp.dryRun = false) :
    Event.fetchCall code ci.suffix ∈ (runFromLoop inp ev0 [(code, ci)]).events ∧
    ((runFromLoop inp ev0 [(code, ci)]).outcome = RunOutcome.done →
      ∃ d, (runFromLoop inp ev0 [(code, ci)]).file = some d ∧
        ∀ iso, ¬ iso = code → dictLookup iso d.entries = none) := by
  have hinit : initialEntries inp = [] := by
    unfold initialEntries
    cases inp.file with
    | none => rfl
    | some d =>
      rw [hsel]
      simp
  obtain ⟨m1, m2⟩ := runLoop_single
    ⟨inp.dryRun, countrySelected inp, inp.fetchO, inp.extractO⟩ code ci
    ⟨initialEntries inp, 0, 0, 0, 1, inp.file, ev0⟩ hsel hd hinit
  cases hres : runLoop ⟨inp.dryRun, countrySelected inp, inp.fetchO, inp.extractO⟩
      [(code, ci)] ⟨initialEntries inp, 0, 0, 0, 1, inp.file, ev0⟩ with
  | raised e st =>
    rw [hres] at m1
    dsimp only [LoopRes.st] at m1
    unfold runFromLoop
    dsimp only
    rw [hres]
    exact ⟨m1, fun ho => absurd ho (by simp)⟩
  | finished st =>
    rw [hres] at m1
    dsimp only [LoopRes.st] at m1
    unfold runFromLoop
    dsimp only
    rw [hres]
    dsimp only
    rw [if_neg (by rw [hd]; exact Bool.false_ne_true)]
    exact ⟨m1, fun _ => ⟨⟨st.tick, st.entries⟩, rfl, m2 st hres⟩⟩

/-- C1 amended: a non-dry run with --country set to a code in the table (the
API key being present) does force a refresh: the country is fetched even
when an entry for it already exists in the persisted document; but the prior
document is not loaded in single-country mode, so whenever the run completes
and performs its final write, the resulting document contains no entry for
any other ISO code — the other entries are dropped, not preserved. -/
theorem c1_forced_refresh (inp : RunInput) (c : String) (ci : CountryInfo)
    (k : String)
    (hc : inp.country = some c) (hk : inp.apiKey = some k)
    (hd : inp.dryRun = false)
    (hci : dictLookup (pyUpper c) COUNTRIES = some ci) :
    Event.fetchCall (pyUpper c) ci.suffix ∈ (PlateLab.main inp).events ∧
    ((PlateLab.main inp).outcome = RunOutcome.done →
      ∃ d, (PlateLab.main inp).file = some d ∧
        ∀ iso, ¬ iso = pyUpper c → dictLookup iso d.entries = none) := by
  have hce : ¬ c.isEmpty = true := by
    intro hemp
    have hc0 : c = "" := (String.isEmpty_iff c).mp hemp
    rw [hc0] at hci
    have hnone : dictLookup (pyUpper "") COUNTRIES = (none : Option CountryInfo) := rfl
    rw [hnone] at hci
    exact Option.noConfusion hci
  have hsel : countrySelected inp = true := by
    unfold countrySelected
    rw [hc]
    simp [Bool.not_eq_true] at hce ⊢
    exact hce
  unfold main
  rw [if_neg (by rw [hk]; simp)]
  dsimp only
  rw [hc]
  dsimp only
  rw [if_neg hce, hci]
  exact runFromLoop_single inp _ (pyUpper c) ci hsel hd

/-- C1 witness: the forced-refresh theorem at a concrete run with a
lowercase code de over a document holding an entry for IT: DE is fetched,
the run completes, and the final document holds no entry for IT. -/
theorem c1_forced_refresh_witness :
    Event.fetchCall (pyUpper "de") (CountryInfo.mk "Germany" "Germany").suffix ∈
      (PlateLab.main c1WitnessInput).events ∧
    ((PlateLab.main c1WitnessInput).outcome = RunOutcome.done →
      ∃ d, (PlateLab.main c1WitnessInput).file = some d ∧
        ∀ iso, ¬ iso = pyUpper "de" → dictLookup iso d.entries = none) :=
  c1_forced_refresh c1WitnessInput "de" ⟨"Germany", "Germany"⟩ "sk-test"
    rfl rfl rfl (by decide)

/- Claim C9: abort on an unknown single-country code. -/

/-- C9 counterexample: with --country ZZ, no API key and no dry-run flag,
the run aborts for the missing credential before the country code is ever
examined: the outcome is the missing-key abort and the code/name table is
not printed — contradicting the claim that every run with an unknown code
aborts printing the full sorted table. -/
theorem c9_missing_key_preempts_unknown_code :
    (PlateLab.main c9Input).outcome = RunOutcome.missingKey ∧
    Event.printLine "Available codes:" ∉ (PlateLab.main c9Input).events :=
  ⟨rfl, by decide⟩

/-- C9 amended: whenever the credential check passes (an API key is present,
or dry-run is selected), a run whose --country code (after uppercasing) is
not in the static table aborts with the unknown-country outcome, performs no
fetch at all, and prints exactly the unknown-code message followed by the
full code/name table sorted by ISO code. -/
theorem c9_unknown_code_aborts (inp : RunInput) (c : String)
    (hc : inp.country = some c)
    (hkey : inp.apiKey.isNone = false ∨ inp.dryRun = true)
    (hne : c.isEmpty = false)
    (hunk : dictLookup (pyUpper c) COUNTRIES = none) :
    (PlateLab.main inp).outcome = RunOutcome.unknownCountry ∧
    (∀ iso sfx, Event.fetchCall iso sfx ∉ (PlateLab.main inp).events) ∧
    (PlateLab.main inp).events =
      (if inp.dryRun then [] else [Event.clientCreate]) ++
        [Event.printLine ("Unknown country code: " ++ pyUpper c),
         Event.printLine "Available codes:"] ++
        tableLines (sortByCode COUNTRIES) := by
  have hkc : ¬ ((inp.apiKey.isNone && !inp.dryRun) = true) := by
    rcases hkey with h | h
    · rw [h]; simp
    · rw [h]; simp
  unfold main
  rw [if_neg hkc]
  dsimp only
  rw [hc]
  dsimp only
  rw [if_neg (by rw [hne]; exact Bool.false_ne_true), hunk]
  refine ⟨rfl, ?_, rfl⟩
  intro iso sfx hmem
  by_cases hdr : inp.dryRun = true
  · simp [hdr, tableLines] at hmem
  · simp [hdr, tableLines] at hmem

/-- C9 witness: a dry run with the unknown lowercase code zz aborts with the
unknown-country outcome, fetches nothing, and prints the sorted table. -/
theorem c9_unknown_code_aborts_witness :
    (PlateLab.main c9WitnessInput).outcome = RunOutcome.unknownCountry ∧
    (∀ iso sfx, Event.fetchCall iso sfx ∉ (PlateLab.main c9WitnessInput).events) ∧
    (PlateLab.main c9WitnessInput).events =
      (if c9WitnessInput.dryRun then [] else [Event.clientCreate]) ++
        [Event.printLine ("Unknown country code: " ++ pyUpper "zz"),
         Event.printLine "Available codes:"] ++
        tableLines (sortByCode COUNTRIES) :=
  c9_unknown_code_aborts c9WitnessInput "zz" rfl (Or.inr rfl) rfl (by decide)

end PlateLab
